import Mathlib

/-!
Verification development for the libcpptask deferred-execution library.

The embedding follows the C++ sources:
  * `CppTask_ITask.h`    : the `TaskState` enumeration.
  * `CppTask_Task.cpp`   : the `TaskThread` execution unit (guarded run,
                           result publication, finish signalling, await,
                           state read).
  * `CppTask_Task.h`     : the `Task<T>` handle template (constructor
                           lambda, `Run`, `CompletedTask`, `GetResult`).
  * `CppTask_ThreadPool.cpp` : the pool's `Enqueue` admission control.

All operations in the C++ code take the unit's single mutex (or the pool's
single mutex) around every access to the fields they touch, so each locked
block is one atomic step on the unit's (or pool's) state.  The embedding
therefore models each locked block as one pure function on an explicit
state value; errors (`throw Exception(...)`) become an error value, with
the different throw sites distinguished the way §7 of the design document
distinguishes them.  Interleavings of several threads acting on one unit
are modelled further below by a labelled deterministic step function whose
atomic steps are exactly the locked blocks.
-/

namespace CppTask

/-- TaskState from CppTask_ITask.h: WAITING = 0, RUNNING = 1, FINISHED = 2. -/
inductive TaskState
  | WAITING
  | RUNNING
  | FINISHED
deriving DecidableEq, Repr

/-- Numeric value of each enumerator, as declared in CppTask_ITask.h; the
states are ordered by progress. -/
def TaskState.toNat : TaskState → Nat
  | .WAITING => 0
  | .RUNNING => 1
  | .FINISHED => 2

/-- Error kinds of §7 of the design document.  The code raises one uniform
`Exception` type carrying a message; each constructor below stands for one
family of throw sites, identified by `TaskError.message`. -/
inductive TaskError
  | DoubleRun
  | PoolStopped
  | InvalidArgument
  | NoResult
deriving DecidableEq, Repr

/-- The exact message the corresponding `throw Exception(...)` site uses
(for DoubleRun, the message of the TaskThread::Run site). -/
def TaskError.message : TaskError → String
  | .DoubleRun => "Attempted to run a task already run before!"
  | .PoolStopped => "Thread pool is stopped!"
  | .InvalidArgument => "Invalid parameters!"
  | .NoResult => "No result available to return!"

/-- TaskThread::Storage (CppTask_Task.cpp): the fields guarded by the
unit's mutex.  `m_function` is kept outside the state: it is written once
by the constructor and the embedding represents the constructor-captured
lambda by the value it publishes.  The type-erased byte buffer
`std::shared_ptr<char[]> m_pResult` is modelled at value granularity with
slot type `β`: `Task<T>` stores and reads the buffer with the same static
type `T` and size `sizeof(T)` on both sides, so the `memcpy` round trip is
the identity on the stored value.  `none` models the null buffer. -/
structure TaskThreadState (β : Type) where
  state : TaskState
  result : Option β
deriving DecidableEq, Repr

/-- TaskThread::TaskThread: `m_state = TaskState::WAITING; m_pResult = nullptr`. -/
def TaskThread.init (β : Type) : TaskThreadState β :=
  { state := TaskState.WAITING, result := none }

/-- The locked block of TaskThread::Run (CppTask_Task.cpp lines 76-97): under
the mutex, if `m_state != WAITING` throw (DoubleRun family); otherwise set
`m_state = RUNNING`.  The captured `m_function` is invoked only after this
block released the lock, so the pair returned here is (outcome, unit state
at the moment the work is about to be invoked / the throw happened). -/
def TaskThread.RunGuard (u : TaskThreadState β) :
    Except TaskError Unit × TaskThreadState β :=
  if u.state ≠ TaskState.WAITING then
    (Except.error TaskError.DoubleRun, u)
  else
    (Except.ok (), { u with state := TaskState.RUNNING })

/-- The unit-lock part of TaskThread::Enqueue (CppTask_Task.cpp lines 63-74):
under the unit's mutex, if `m_state != WAITING` throw (DoubleRun family);
otherwise the unit is handed to `ThreadPool::Singleton().Enqueue` unchanged. -/
def TaskThread.EnqueueGuard (u : TaskThreadState β) :
    Except TaskError Unit × TaskThreadState β :=
  if u.state ≠ TaskState.WAITING then
    (Except.error TaskError.DoubleRun, u)
  else
    (Except.ok (), u)

/-- TaskThread::SetFinished (CppTask_Task.cpp lines 104-113): under the mutex,
if `m_state != FINISHED` then set `m_state = FINISHED` and notify all
waiters.  The notification itself is modelled in the step system below. -/
def TaskThread.SetFinished (u : TaskThreadState β) : TaskThreadState β :=
  if u.state ≠ TaskState.FINISHED then
    { u with state := TaskState.FINISHED }
  else
    u

/-- TaskThread::SetResult (CppTask_Task.cpp lines 130-142): if the source
pointer is null or `size == 0`, throw "Invalid parameters!"; otherwise,
under the mutex, allocate a fresh buffer and copy the `size` bytes of the
value into it.  `ptrIsNull` models `c_pPtr == nullptr`; `v` is the pointed-to
value. -/
def TaskThread.SetResult (ptrIsNull : Bool) (size : Nat) (v : β)
    (u : TaskThreadState β) : Except TaskError Unit × TaskThreadState β :=
  if ptrIsNull ∨ size = 0 then
    (Except.error TaskError.InvalidArgument, u)
  else
    (Except.ok (), { u with result := some v })

/-- TaskThread::GetResult (CppTask_Task.cpp lines 145-160): if the destination
pointer is null or `size == 0`, throw "Invalid parameters!"; under the mutex,
if `m_pResult == nullptr` throw "No result available to return!"; otherwise
copy the stored bytes out.  The body only reads the storage, so the unit
state is returned unchanged as the second component. -/
def TaskThread.GetResult (ptrIsNull : Bool) (size : Nat)
    (u : TaskThreadState β) : Except TaskError β × TaskThreadState β :=
  if ptrIsNull ∨ size = 0 then
    (Except.error TaskError.InvalidArgument, u)
  else
    match u.result with
    | none => (Except.error TaskError.NoResult, u)
    | some v => (Except.ok v, u)

/-- TaskThread::GetState (CppTask_Task.cpp lines 166-171): read `m_state`
under the mutex. -/
def TaskThread.GetState (u : TaskThreadState β) : TaskState :=
  u.state

/-- The pool fields guarded by the pool's mutex (CppTask_ThreadPool.h):
`m_runThreads` (true from construction until the destructor clears it) and
`m_taskThreads`, the FIFO `std::list` of queued unit references.  `τ` stands
for `std::shared_ptr<TaskThread>`. -/
structure PoolState (τ : Type) where
  runThreads : Bool
  taskThreads : List τ
deriving DecidableEq, Repr

/-- ThreadPool::Enqueue (CppTask_ThreadPool.cpp lines 101-118): if the passed
shared pointer is empty, throw "Invalid parameters!"; then under the pool's
mutex, if `!m_runThreads` throw "Thread pool is stopped!"; otherwise
`emplace_back` the unit on the queue and notify one worker.  A possibly-null
`std::shared_ptr<TaskThread>` is `Option τ`, with `none` the null pointer.
The pair returned is (outcome, pool state after the call). -/
def ThreadPool.Enqueue (pTaskThread : Option τ) (ps : PoolState τ) :
    Except TaskError Unit × PoolState τ :=
  match pTaskThread with
  | none => (Except.error TaskError.InvalidArgument, ps)
  | some t =>
    if ¬ ps.runThreads then
      (Except.error TaskError.PoolStopped, ps)
    else
      (Except.ok (), { ps with taskThreads := ps.taskThreads ++ [t] })

/-- Task<T>::GetResult (CppTask_Task.h lines 309-321): `if constexpr` T is not
void, call `TaskThread::GetResult(pDst, sizeof(T))` with a stack buffer
(never null) and unbox; for T = void the whole body is compiled out and the
call returns normally with no effect.  `isVoidT` models
`std::is_same_v<T, void>`; the value read for non-void T is wrapped in
`some`. -/
def Task.GetResult (isVoidT : Bool) (sizeofT : Nat)
    (u : TaskThreadState β) : Except TaskError (Option β) :=
  if isVoidT then
    Except.ok none
  else
    match (TaskThread.GetResult false sizeofT u).1 with
    | Except.error e => Except.error e
    | Except.ok v => Except.ok (some v)

/-- Task<T>::CompletedTask(c_Result) for non-void T (CppTask_Task.h lines
248-264): construct a task (fresh unit in WAITING with null result), then
`SetResult(&c_Result, sizeof(c_Result))` and `SetFinished()` on its unit.
The factory never calls `ThreadPool::Enqueue`, so the pool state it runs
against is threaded through untouched. -/
def Task.CompletedTask (v : β) (sizeofT : Nat) (ps : PoolState τ) :
    Except TaskError (TaskThreadState β) × PoolState τ :=
  let u0 := TaskThread.init β
  match TaskThread.SetResult false sizeofT v u0 with
  | (Except.error e, _) => (Except.error e, ps)
  | (Except.ok _, u1) => (Except.ok (TaskThread.SetFinished u1), ps)

/-- Task<void>::CompletedTask() (CppTask_Task.h lines 231-239): construct a
task from the empty lambda (fresh unit) and call `SetFinished()` on its
unit; no result is ever stored and the pool is never touched. -/
def Task.CompletedTaskVoid (β : Type) (ps : PoolState τ) :
    TaskThreadState β × PoolState τ :=
  (TaskThread.SetFinished (TaskThread.init β), ps)

/-!
Interleaving semantics for one result-carrying execution unit.

Every mutation of a unit's fields happens inside one of the locked blocks
embedded above, so thread interleavings are interleavings of those blocks.
The system below tracks, next to the unit's fields, the control position of
the producer (the code that is entitled to call SetResult/SetFinished: a
pool worker running the constructor-captured lambda after TaskThread::Run,
or the CompletedTask factory body) and of one observer thread inside
TaskThread::Await.  The unit's condition variable is modelled by the
observer positions: `waiting` (inside `m_condition.wait`), `wakePending`
(notify_all of SetFinished reached it, lock not yet reacquired).
`std::condition_variable::wait` may also return spuriously, which the
source does not re-check (the `if` in TaskThread::Await); a spurious return
is its own step label so that executions with and without spurious wakeups
can be told apart.
-/

/-- Which program produces the unit's completion: a pool worker invoking
TaskThread::Run and the constructor-captured lambda (`viaRun`), or the
CompletedTask factory calling SetResult/SetFinished directly on a fresh
unit that was never enqueued (`viaFactory`). -/
inductive Producer
  | viaRun
  | viaFactory
deriving DecidableEq, Repr

/-- Control position of the producer: before anything ran; after the
TaskThread::Run guard set RUNNING (lambda about to execute); after
SetResult stored the value; after SetFinished. -/
inductive Phase
  | created
  | started
  | resultSet
  | finishedPh
deriving DecidableEq, Repr

/-- Control position of the observer thread with respect to
TaskThread::Await: not yet called; blocked in `m_condition.wait`; woken by
the notify_all in SetFinished but the lock not yet reacquired; returned
from Await, recording the unit state at the moment of return. -/
inductive WaiterPC
  | idle
  | waiting
  | wakePending
  | returned (observed : TaskState)
deriving DecidableEq, Repr

/-- Global state of the interleaving system: the unit's locked fields plus
the two control positions. -/
structure Sys (β : Type) where
  unit : TaskThreadState β
  prog : Producer
  phase : Phase
  waiter : WaiterPC
deriving DecidableEq, Repr

/-- The atomic steps: each is one locked block of the source. -/
inductive Label
  | runOk
  | runFail
  | setRes
  | setFin
  | awaitFast
  | awaitWait
  | wakeReturn
  | spuriousWake
deriving DecidableEq, Repr

/-- One atomic step.  `v` is the value the closure produces.
  * `runOk`: the TaskThread::Run guard finds WAITING, sets RUNNING, and the
    worker proceeds into the lambda (only in the `viaRun` program, and only
    from its initial position).
  * `runFail`: any TaskThread::Run (or TaskThread::Enqueue) attempt that
    finds the state not WAITING throws DoubleRun and mutates nothing.
  * `setRes`: the producer's SetResult call — in the lambda right after the
    closure returned, or first thing in the CompletedTask factory.
  * `setFin`: the producer's SetFinished call: set FINISHED if not already,
    `notify_all` (a waiter inside `wait` becomes wake-pending).
  * `awaitFast`: Await called with the state already FINISHED returns at
    once (the `if` is not taken).
  * `awaitWait`: Await called with the state not FINISHED enters
    `m_condition.wait`, releasing the lock.
  * `wakeReturn`: a notified waiter reacquires the lock and returns from
    Await without re-checking the state.
  * `spuriousWake`: `wait` returns spuriously (allowed by
    std::condition_variable); the `if` means Await just returns. -/
def stepFn (v : β) : Label → Sys β → Option (Sys β)
  | Label.runOk, s =>
    if s.unit.state = TaskState.WAITING ∧ s.prog = Producer.viaRun ∧
        s.phase = Phase.created then
      some { s with unit := { s.unit with state := TaskState.RUNNING },
                    phase := Phase.started }
    else
      none
  | Label.runFail, s =>
    if s.unit.state ≠ TaskState.WAITING then some s else none
  | Label.setRes, s =>
    if (s.prog = Producer.viaRun ∧ s.phase = Phase.started) ∨
        (s.prog = Producer.viaFactory ∧ s.phase = Phase.created) then
      some { s with unit := { s.unit with result := some v },
                    phase := Phase.resultSet }
    else
      none
  | Label.setFin, s =>
    if s.phase = Phase.resultSet then
      some { s with unit := TaskThread.SetFinished s.unit,
                    phase := Phase.finishedPh,
                    waiter := if s.waiter = WaiterPC.waiting then
                        WaiterPC.wakePending
                      else s.waiter }
    else
      none
  | Label.awaitFast, s =>
    if s.waiter = WaiterPC.idle ∧ s.unit.state = TaskState.FINISHED then
      some { s with waiter := WaiterPC.returned s.unit.state }
    else
      none
  | Label.awaitWait, s =>
    if s.waiter = WaiterPC.idle ∧ s.unit.state ≠ TaskState.FINISHED then
      some { s with waiter := WaiterPC.waiting }
    else
      none
  | Label.wakeReturn, s =>
    if s.waiter = WaiterPC.wakePending then
      some { s with waiter := WaiterPC.returned s.unit.state }
    else
      none
  | Label.spuriousWake, s =>
    if s.waiter = WaiterPC.waiting then
      some { s with waiter := WaiterPC.returned s.unit.state }
    else
      none

/-- Run a list of step labels from a state; `none` when a step is not
enabled. -/
def runTrace (v : β) : List Label → Sys β → Option (Sys β)
  | [], s => some s
  | l :: ls, s =>
    match stepFn v l s with
    | none => none
    | some s2 => runTrace v ls s2

/-- The system's initial state: a freshly constructed unit (WAITING, null
result), the producer before its first step, no observer inside Await. -/
def initSys (β : Type) (prog : Producer) : Sys β :=
  { unit := TaskThread.init β, prog := prog, phase := Phase.created,
    waiter := WaiterPC.idle }

/-- Number of successful TaskThread::Run guard passages in a trace. -/
def numRunOk : List Label → Nat
  | [] => 0
  | Label.runOk :: ls => numRunOk ls + 1
  | _ :: ls => numRunOk ls

/-- Labels other than runOk do not count. -/
theorem numRunOk_cons_ne (l : Label) (ls : List Label)
    (hl : l ≠ Label.runOk) : numRunOk (l :: ls) = numRunOk ls := by
  cases l <;> first | rfl | exact absurd rfl hl

/-- Every enabled step either leaves the unit's state alone or is one of:
the run guard taking WAITING to RUNNING, SetFinished taking RUNNING to
FINISHED, or SetFinished taking WAITING to FINISHED (the factory path). -/
theorem stepFn_trans_char (v : β) (l : Label) (s s' : Sys β)
    (h : stepFn v l s = some s') :
    s'.unit.state = s.unit.state ∨
    (s.unit.state = TaskState.WAITING ∧ s'.unit.state = TaskState.RUNNING ∧
      l = Label.runOk) ∨
    (s.unit.state = TaskState.RUNNING ∧ s'.unit.state = TaskState.FINISHED ∧
      l = Label.setFin) ∨
    (s.unit.state = TaskState.WAITING ∧ s'.unit.state = TaskState.FINISHED ∧
      l = Label.setFin) := by
  cases l <;> simp only [stepFn] at h
  case runOk =>
    split at h
    case isTrue hc =>
      rw [Option.some_inj] at h
      subst h
      exact Or.inr (Or.inl ⟨hc.1, rfl, rfl⟩)
    case isFalse hc => exact absurd h (by simp)
  case runFail =>
    split at h
    case isTrue hc =>
      rw [Option.some_inj] at h
      subst h
      exact Or.inl rfl
    case isFalse hc => exact absurd h (by simp)
  case setRes =>
    split at h
    case isTrue hc =>
      rw [Option.some_inj] at h
      subst h
      exact Or.inl rfl
    case isFalse hc => exact absurd h (by simp)
  case setFin =>
    split at h
    case isTrue hc =>
      rw [Option.some_inj] at h
      subst h
      cases hs : s.unit.state with
      | WAITING =>
        refine Or.inr (Or.inr (Or.inr ⟨rfl, ?_, rfl⟩))
        simp [TaskThread.SetFinished, hs]
      | RUNNING =>
        refine Or.inr (Or.inr (Or.inl ⟨rfl, ?_, rfl⟩))
        simp [TaskThread.SetFinished, hs]
      | FINISHED =>
        refine Or.inl ?_
        simp [TaskThread.SetFinished, hs]
    case isFalse hc => exact absurd h (by simp)
  case awaitFast =>
    split at h
    case isTrue hc =>
      rw [Option.some_inj] at h
      subst h
      exact Or.inl rfl
    case isFalse hc => exact absurd h (by simp)
  case awaitWait =>
    split at h
    case isTrue hc =>
      rw [Option.some_inj] at h
      subst h
      exact Or.inl rfl
    case isFalse hc => exact absurd h (by simp)
  case wakeReturn =>
    split at h
    case isTrue hc =>
      rw [Option.some_inj] at h
      subst h
      exact Or.inl rfl
    case isFalse hc => exact absurd h (by simp)
  case spuriousWake =>
    split at h
    case isTrue hc =>
      rw [Option.some_inj] at h
      subst h
      exact Or.inl rfl
    case isFalse hc => exact absurd h (by simp)

/-- No step takes the unit's state back to WAITING. -/
theorem stepFn_not_waiting (v : β) (l : Label) (s s' : Sys β)
    (h : stepFn v l s = some s') (hw : s.unit.state ≠ TaskState.WAITING) :
    s'.unit.state ≠ TaskState.WAITING := by
  rcases stepFn_trans_char v l s s' h with he | ⟨hc, _, _⟩ | ⟨_, hc, _⟩ | ⟨hc, _, _⟩
  · rw [he]; exact hw
  · exact absurd hc hw
  · rw [hc]; simp
  · exact absurd hc hw

/-- A successful run-guard step requires WAITING and leaves RUNNING. -/
theorem stepFn_runOk_waiting (v : β) (s s' : Sys β)
    (h : stepFn v Label.runOk s = some s') :
    s.unit.state = TaskState.WAITING ∧ s'.unit.state = TaskState.RUNNING := by
  simp only [stepFn] at h
  split at h
  case isTrue hc =>
    rw [Option.some_inj] at h
    subst h
    exact ⟨hc.1, rfl⟩
  case isFalse hc => exact absurd h (by simp)

/-- Once away from WAITING, a trace contains no further successful run
guard passage. -/
theorem runTrace_numRunOk_zero (v : β) (ls : List Label) (s s' : Sys β)
    (h : runTrace v ls s = some s') (hw : s.unit.state ≠ TaskState.WAITING) :
    numRunOk ls = 0 := by
  induction ls generalizing s with
  | nil => rfl
  | cons l ls ih =>
    simp only [runTrace] at h
    cases hstep : stepFn v l s with
    | none => rw [hstep] at h; exact absurd h (by simp)
    | some s2 =>
      rw [hstep] at h
      have hl : l ≠ Label.runOk := by
        intro hl
        subst hl
        exact hw (stepFn_runOk_waiting v s s2 hstep).1
      rw [numRunOk_cons_ne l ls hl]
      exact ih s2 h (stepFn_not_waiting v l s s2 hstep hw)

/-- Any executable trace passes the run guard successfully at most once. -/
theorem runTrace_numRunOk_le_one (v : β) (ls : List Label) (s s' : Sys β)
    (h : runTrace v ls s = some s') : numRunOk ls ≤ 1 := by
  induction ls generalizing s with
  | nil => simp [numRunOk]
  | cons l ls ih =>
    simp only [runTrace] at h
    cases hstep : stepFn v l s with
    | none => rw [hstep] at h; exact absurd h (by simp)
    | some s2 =>
      rw [hstep] at h
      by_cases hl : l = Label.runOk
      · subst hl
        have h2 : numRunOk ls = 0 := by
          refine runTrace_numRunOk_zero v ls s2 s' h ?_
          rw [(stepFn_runOk_waiting v s s2 hstep).2]
          simp
        simp [numRunOk, h2]
      · rw [numRunOk_cons_ne l ls hl]
        exact ih s2 h

/-- Publication invariant: once the producer has passed SetResult, the
value is stored, and the unit can only be FINISHED once the producer has
passed SetFinished (which comes after SetResult in both producer
programs). -/
def Inv (v : β) (s : Sys β) : Prop :=
  ((s.phase = Phase.resultSet ∨ s.phase = Phase.finishedPh) →
    s.unit.result = some v) ∧
  (s.unit.state = TaskState.FINISHED → s.phase = Phase.finishedPh)

/-- TaskThread::SetFinished only touches `m_state`; the stored result is
left alone. -/
theorem TaskThread.SetFinished_result (u : TaskThreadState β) :
    (TaskThread.SetFinished u).result = u.result := by
  simp only [TaskThread.SetFinished]
  split <;> rfl

/-- Every enabled step preserves the publication invariant. -/
theorem stepFn_inv (v : β) (l : Label) (s s' : Sys β)
    (h : stepFn v l s = some s') (hi : Inv v s) : Inv v s' := by
  cases l <;> simp only [stepFn] at h
  case runOk =>
    split at h
    case isTrue hc =>
      rw [Option.some_inj] at h
      subst h
      refine ⟨fun hp => ?_, fun hf => ?_⟩
      · rcases hp with hp | hp <;> exact absurd hp (by simp)
      · exact absurd hf (by simp)
    case isFalse hc => exact absurd h (by simp)
  case runFail =>
    split at h
    case isTrue hc =>
      rw [Option.some_inj] at h
      subst h
      exact hi
    case isFalse hc => exact absurd h (by simp)
  case setRes =>
    split at h
    case isTrue hc =>
      rw [Option.some_inj] at h
      subst h
      refine ⟨fun _ => rfl, fun hf => ?_⟩
      have hp := hi.2 hf
      rcases hc with ⟨_, hc⟩ | ⟨_, hc⟩ <;> rw [hc] at hp <;>
        exact absurd hp (by simp)
    case isFalse hc => exact absurd h (by simp)
  case setFin =>
    split at h
    case isTrue hc =>
      rw [Option.some_inj] at h
      subst h
      exact ⟨fun _ => (TaskThread.SetFinished_result s.unit).trans
        (hi.1 (Or.inl hc)), fun _ => rfl⟩
    case isFalse hc => exact absurd h (by simp)
  case awaitFast =>
    split at h
    case isTrue hc =>
      rw [Option.some_inj] at h
      subst h
      exact hi
    case isFalse hc => exact absurd h (by simp)
  case awaitWait =>
    split at h
    case isTrue hc =>
      rw [Option.some_inj] at h
      subst h
      exact hi
    case isFalse hc => exact absurd h (by simp)
  case wakeReturn =>
    split at h
    case isTrue hc =>
      rw [Option.some_inj] at h
      subst h
      exact hi
    case isFalse hc => exact absurd h (by simp)
  case spuriousWake =>
    split at h
    case isTrue hc =>
      rw [Option.some_inj] at h
      subst h
      exact hi
    case isFalse hc => exact absurd h (by simp)

/-- The publication invariant is preserved along every executable trace. -/
theorem runTrace_inv (v : β) (ls : List Label) (s s' : Sys β)
    (h : runTrace v ls s = some s') (hi : Inv v s) : Inv v s' := by
  induction ls generalizing s with
  | nil =>
    simp only [runTrace, Option.some_inj] at h
    subst h
    exact hi
  | cons l ls ih =>
    simp only [runTrace] at h
    cases hstep : stepFn v l s with
    | none => rw [hstep] at h; exact absurd h (by simp)
    | some s2 =>
      rw [hstep] at h
      exact ih s2 h (stepFn_inv v l s s2 hstep hi)

/-!
Lock acquisition model for the lock-disjointness question.

Each embedded operation above is one or more critical sections; the lists
below record, in program order, the acquisitions and releases of the two
mutexes (`m_pStorage->m_mutex` of the unit, `m_mutex` of the pool) that
each source function performs, including the functions it calls.  A
`lock_guard`/`unique_lock` releases at the end of its scope; the
condition-variable waits release and reacquire the lock they were given.
-/

/-- The two mutexes in the system: the unit's lock and the pool's queue
lock. -/
inductive LockEvt
  | acqUnit
  | relUnit
  | acqQueue
  | relQueue
deriving DecidableEq, Repr

/-- Which of the two locks a thread currently holds. -/
structure HeldLocks where
  unitHeld : Bool
  queueHeld : Bool
deriving DecidableEq, Repr

/-- Effect of one lock event on the set of held locks. -/
def HeldLocks.apply : HeldLocks → LockEvt → HeldLocks
  | h, LockEvt.acqUnit => { h with unitHeld := true }
  | h, LockEvt.relUnit => { h with unitHeld := false }
  | h, LockEvt.acqQueue => { h with queueHeld := true }
  | h, LockEvt.relQueue => { h with queueHeld := false }

/-- Whether, at some point of the event list, both locks are held at once. -/
def anyBothHeld (h : HeldLocks) : List LockEvt → Bool
  | [] => false
  | e :: es =>
    let h2 := h.apply e
    (h2.unitHeld && h2.queueHeld) || anyBothHeld h2 es

/-- Whether the event list ever acquires the unit lock while the queue lock
is already held (the reverse of the order TaskThread::Enqueue uses). -/
def anyUnitAcqWhileQueueHeld (h : HeldLocks) : List LockEvt → Bool
  | [] => false
  | e :: es =>
    (match e with
     | LockEvt.acqUnit => h.queueHeld
     | _ => false) || anyUnitAcqWhileQueueHeld (h.apply e) es

/-- ThreadPool::Enqueue (CppTask_ThreadPool.cpp lines 101-118): one
lock_guard on the pool mutex around the admission check and the append. -/
def lockTrace_ThreadPool_Enqueue : List LockEvt :=
  [LockEvt.acqQueue, LockEvt.relQueue]

/-- TaskThread::Enqueue (CppTask_Task.cpp lines 63-74): a lock_guard on the
unit's mutex spans the whole body, and the body calls
`ThreadPool::Singleton().Enqueue(pTaskThread)` inside that scope, so the
pool mutex is taken while the unit mutex is held. -/
def lockTrace_TaskThread_Enqueue : List LockEvt :=
  LockEvt.acqUnit :: (lockTrace_ThreadPool_Enqueue ++ [LockEvt.relUnit])

/-- The guard block of TaskThread::Run: one critical section on the unit
mutex; the captured function runs after it is released. -/
def lockTrace_TaskThread_RunGuard : List LockEvt :=
  [LockEvt.acqUnit, LockEvt.relUnit]

/-- TaskThread::SetResult: one critical section on the unit mutex. -/
def lockTrace_TaskThread_SetResult : List LockEvt :=
  [LockEvt.acqUnit, LockEvt.relUnit]

/-- TaskThread::SetFinished: one critical section on the unit mutex. -/
def lockTrace_TaskThread_SetFinished : List LockEvt :=
  [LockEvt.acqUnit, LockEvt.relUnit]

/-- TaskThread::GetResult: one critical section on the unit mutex. -/
def lockTrace_TaskThread_GetResult : List LockEvt :=
  [LockEvt.acqUnit, LockEvt.relUnit]

/-- TaskThread::GetState: one critical section on the unit mutex. -/
def lockTrace_TaskThread_GetState : List LockEvt :=
  [LockEvt.acqUnit, LockEvt.relUnit]

/-- TaskThread::Await: unique_lock on the unit mutex; `m_condition.wait`
releases it while blocked and reacquires it before returning; the
unique_lock releases at scope end. -/
def lockTrace_TaskThread_Await : List LockEvt :=
  [LockEvt.acqUnit, LockEvt.relUnit, LockEvt.acqUnit, LockEvt.relUnit]

/-- The constructor-captured lambda of Task<T> (non-void): SetResult then
SetFinished on the unit. -/
def lockTrace_Task_lambda : List LockEvt :=
  lockTrace_TaskThread_SetResult ++ lockTrace_TaskThread_SetFinished

/-- TaskThread::Run as executed by a worker: the guard block, then the
captured lambda (invoked with no lock held). -/
def lockTrace_TaskThread_Run : List LockEvt :=
  lockTrace_TaskThread_RunGuard ++ lockTrace_Task_lambda

/-- One iteration of ThreadPool::RunThread that executes an item: the
unique_lock on the pool mutex (with the condition wait releasing and
reacquiring it), the pop, scope-end release, and then TaskThread::Run
invoked with the queue lock no longer held. -/
def lockTrace_ThreadPool_RunThread : List LockEvt :=
  [LockEvt.acqQueue, LockEvt.relQueue, LockEvt.acqQueue, LockEvt.relQueue] ++
    lockTrace_TaskThread_Run

/-- The ThreadPool destructor: a lock_guard on the pool mutex around
clearing `m_runThreads` and notifying; the joins run with no lock held. -/
def lockTrace_ThreadPool_dtor : List LockEvt :=
  [LockEvt.acqQueue, LockEvt.relQueue]

/-- Every lock-acquisition path a thread of the library can execute. -/
def codeLockTraces : List (List LockEvt) :=
  [lockTrace_ThreadPool_Enqueue,
   lockTrace_TaskThread_Enqueue,
   lockTrace_TaskThread_RunGuard,
   lockTrace_TaskThread_SetResult,
   lockTrace_TaskThread_SetFinished,
   lockTrace_TaskThread_GetResult,
   lockTrace_TaskThread_GetState,
   lockTrace_TaskThread_Await,
   lockTrace_Task_lambda,
   lockTrace_TaskThread_Run,
   lockTrace_ThreadPool_RunThread,
   lockTrace_ThreadPool_dtor]

/-!
The claims.
-/

/-- Claim C1: TaskThread::Run fails with DoubleRun if and only if the unit
is not WAITING at the call; on failure the unit's state and result are
unchanged; on success the state is RUNNING (and the result untouched) at
the moment the captured work is about to be invoked; and along any
executable interleaving, at most one Run attempt passes the guard — only
the first to observe WAITING. -/
theorem run_doubleRun_iff_oneShot (β : Type) (u : TaskThreadState β) :
    ((TaskThread.RunGuard u).1 = Except.error TaskError.DoubleRun ↔
      u.state ≠ TaskState.WAITING) ∧
    (u.state ≠ TaskState.WAITING → (TaskThread.RunGuard u).2 = u) ∧
    (u.state = TaskState.WAITING →
      (TaskThread.RunGuard u).1 = Except.ok () ∧
      (TaskThread.RunGuard u).2.state = TaskState.RUNNING ∧
      (TaskThread.RunGuard u).2.result = u.result) ∧
    (∀ (v : β) (ls : List Label) (s s' : Sys β),
      runTrace v ls s = some s' → numRunOk ls ≤ 1) := by
  refine ⟨?_, ?_, ?_, fun v ls s s' h => runTrace_numRunOk_le_one v ls s s' h⟩
  · by_cases hw : u.state = TaskState.WAITING <;>
      simp [TaskThread.RunGuard, hw]
  · intro hw
    simp [TaskThread.RunGuard, hw]
  · intro hw
    simp [TaskThread.RunGuard, hw]

/-- Witness for the C1 theorem at a concrete unit and a concrete two-step
schedule. -/
theorem run_doubleRun_iff_oneShot_witness :
    (TaskThread.RunGuard (TaskThread.init Nat)).1 = Except.ok () ∧
    (TaskThread.RunGuard (TaskThread.init Nat)).2.state = TaskState.RUNNING ∧
    numRunOk [Label.runOk, Label.runFail] ≤ 1 :=
  ⟨((run_doubleRun_iff_oneShot Nat (TaskThread.init Nat)).2.2.1 rfl).1,
   ((run_doubleRun_iff_oneShot Nat (TaskThread.init Nat)).2.2.1 rfl).2.1,
   (run_doubleRun_iff_oneShot Nat (TaskThread.init Nat)).2.2.2 0
     [Label.runOk, Label.runFail] (initSys Nat Producer.viaRun)
     ⟨⟨TaskState.RUNNING, none⟩, Producer.viaRun, Phase.started,
       WaiterPC.idle⟩ rfl⟩

/-- Claim C2: evaluation of the failing schedule for Run().  Task<T>::Run
is RunAsync followed by Await: the caller's TaskThread::Enqueue passes its
guard on the WAITING unit (mutating nothing, so it is no step of the unit
system) and the caller enters Await while the unit is still WAITING; a
pool worker then passes the run guard; the caller's predicate-less
condition-variable wait returns spuriously, and because TaskThread::Await
re-checks with `if` rather than `while`, Await — and with it Run() —
returns normally.  At that point the unit's state still reads RUNNING, not
FINISHED, and GetResult (with the valid arguments the handle passes)
raises NoResult instead of returning the closure's value, contradicting
the claim that a successful Run() leaves GetState() = Finished and
GetResult() = the closure's value. -/
theorem run_spurious_return_unfinished_noResult :
    runTrace 7 [Label.awaitWait, Label.runOk, Label.spuriousWake]
        (initSys Nat Producer.viaRun) =
      some ⟨⟨TaskState.RUNNING, none⟩, Producer.viaRun, Phase.started,
        WaiterPC.returned TaskState.RUNNING⟩ ∧
    TaskThread.GetState
        (⟨TaskState.RUNNING, none⟩ : TaskThreadState Nat) ≠
      TaskState.FINISHED ∧
    (TaskThread.GetResult false 8
        (⟨TaskState.RUNNING, none⟩ : TaskThreadState Nat)).1 =
      Except.error TaskError.NoResult :=
  ⟨rfl, by decide, rfl⟩

/-- Claim C3: in every reachable state of either producer program of a
result-carrying unit, the state reads FINISHED only if the result has
already been stored, so no observer ever sees FINISHED without the
published value being present. -/
theorem finished_implies_result (β : Type) (v : β) (prog : Producer)
    (ls : List Label) (s' : Sys β)
    (h : runTrace v ls (initSys β prog) = some s')
    (hf : s'.unit.state = TaskState.FINISHED) :
    s'.unit.result = some v := by
  have hi : Inv v (initSys β prog) := by
    constructor
    · intro hp
      rcases hp with hp | hp <;> exact absurd hp (by simp [initSys])
    · intro hfi
      exact absurd hfi (by simp [initSys, TaskThread.init])
  have hinv := runTrace_inv v ls (initSys β prog) s' h hi
  exact hinv.1 (Or.inr (hinv.2 hf))

/-- Witness for the C3 theorem on the concrete factory schedule. -/
theorem finished_implies_result_witness :
    (⟨⟨TaskState.FINISHED, some 5⟩, Producer.viaFactory, Phase.finishedPh,
      WaiterPC.idle⟩ : Sys Nat).unit.result = some 5 :=
  finished_implies_result Nat 5 Producer.viaFactory
    [Label.setRes, Label.setFin]
    ⟨⟨TaskState.FINISHED, some 5⟩, Producer.viaFactory, Phase.finishedPh,
      WaiterPC.idle⟩ rfl rfl

/-- Claim C4 counterexample: the CompletedTask factory calls SetFinished on
a unit still WAITING: from a reachable state with the unit WAITING, the
SetFinished step moves it directly to FINISHED without ever passing
RUNNING, refuting the claim that the spec's three transitions are the only
ones and that FINISHED is never reached directly from WAITING. -/
theorem waiting_to_finished_direct :
    runTrace 0 [Label.setRes] (initSys Nat Producer.viaFactory) =
      some ⟨⟨TaskState.WAITING, some 0⟩, Producer.viaFactory, Phase.resultSet,
        WaiterPC.idle⟩ ∧
    stepFn 0 Label.setFin
        ⟨⟨TaskState.WAITING, some 0⟩, Producer.viaFactory, Phase.resultSet,
          WaiterPC.idle⟩ =
      some ⟨⟨TaskState.FINISHED, some 0⟩, Producer.viaFactory,
        Phase.finishedPh, WaiterPC.idle⟩ :=
  ⟨rfl, rfl⟩

/-- Claim C4 (amended): every step either leaves the unit state unchanged
(failed run attempts and observer steps), moves WAITING to RUNNING (the
run guard), moves RUNNING to FINISHED (SetFinished after the work), or
moves WAITING directly to FINISHED (SetFinished in the CompletedTask
factory); the state only ever moves forward and no step leaves FINISHED. -/
theorem state_machine_transitions (β : Type) (v : β) (l : Label)
    (s s' : Sys β) (h : stepFn v l s = some s') :
    s.unit.state.toNat ≤ s'.unit.state.toNat ∧
    (s.unit.state = TaskState.FINISHED →
      s'.unit.state = TaskState.FINISHED) ∧
    (s'.unit.state = s.unit.state ∨
     (s.unit.state = TaskState.WAITING ∧
       s'.unit.state = TaskState.RUNNING ∧ l = Label.runOk) ∨
     (s.unit.state = TaskState.RUNNING ∧
       s'.unit.state = TaskState.FINISHED ∧ l = Label.setFin) ∨
     (s.unit.state = TaskState.WAITING ∧
       s'.unit.state = TaskState.FINISHED ∧ l = Label.setFin)) := by
  have hc := stepFn_trans_char v l s s' h
  refine ⟨?_, ?_, hc⟩
  · rcases hc with he | ⟨h1, h2, _⟩ | ⟨h1, h2, _⟩ | ⟨h1, h2, _⟩
    · rw [he]
    · rw [h1, h2]
      decide
    · rw [h1, h2]
      decide
    · rw [h1, h2]
      decide
  · intro hf
    rcases hc with he | ⟨h1, _, _⟩ | ⟨h1, _, _⟩ | ⟨h1, _, _⟩
    · rw [he]
      exact hf
    · rw [hf] at h1
      exact absurd h1 (by decide)
    · rw [hf] at h1
      exact absurd h1 (by decide)
    · rw [hf] at h1
      exact absurd h1 (by decide)

/-- Witness for the amended C4 theorem at the concrete run-guard step. -/
theorem state_machine_transitions_witness :
    (initSys Nat Producer.viaRun).unit.state.toNat ≤
      (⟨⟨TaskState.RUNNING, none⟩, Producer.viaRun, Phase.started,
        WaiterPC.idle⟩ : Sys Nat).unit.state.toNat :=
  (state_machine_transitions Nat 0 Label.runOk (initSys Nat Producer.viaRun)
    ⟨⟨TaskState.RUNNING, none⟩, Producer.viaRun, Phase.started,
      WaiterPC.idle⟩ rfl).1

/-- Claim C5: evaluation of the failing schedule.  An observer enters Await
while the unit is WAITING, the worker then passes the run guard, and the
condition-variable wait returns spuriously (std::condition_variable::wait
may do so); because TaskThread::Await re-checks the state with `if` rather
than a `while` loop, Await returns while the unit's state is still
RUNNING, contradicting the claim that Await never returns before
FINISHED. -/
theorem await_spurious_return_while_running :
    runTrace 0 [Label.awaitWait, Label.runOk, Label.spuriousWake]
        (initSys Nat Producer.viaRun) =
      some ⟨⟨TaskState.RUNNING, none⟩, Producer.viaRun, Phase.started,
        WaiterPC.returned TaskState.RUNNING⟩ ∧
    TaskState.RUNNING ≠ TaskState.FINISHED :=
  ⟨rfl, by decide⟩

/-- Claim C6: ThreadPool::Enqueue fails with InvalidArgument exactly when
the unit reference is empty; with a non-empty reference it fails with
PoolStopped when the pool is no longer accepting, and otherwise appends
the unit at the back of the FIFO queue (the accepting flag untouched);
on every failure the pool state is unchanged. -/
theorem pool_enqueue_admission (τ : Type) (p : Option τ) (ps : PoolState τ) :
    ((ThreadPool.Enqueue p ps).1 = Except.error TaskError.InvalidArgument ↔
      p = none) ∧
    (∀ t, p = some t → ps.runThreads = false →
      (ThreadPool.Enqueue p ps).1 = Except.error TaskError.PoolStopped) ∧
    (∀ t, p = some t → ps.runThreads = true →
      (ThreadPool.Enqueue p ps).1 = Except.ok () ∧
      (ThreadPool.Enqueue p ps).2.taskThreads = ps.taskThreads ++ [t] ∧
      (ThreadPool.Enqueue p ps).2.runThreads = ps.runThreads) ∧
    ((ThreadPool.Enqueue p ps).1 ≠ Except.ok () →
      (ThreadPool.Enqueue p ps).2 = ps) := by
  cases p with
  | none => simp [ThreadPool.Enqueue]
  | some t =>
    by_cases hr : ps.runThreads <;>
      simp [ThreadPool.Enqueue, hr]

/-- Witness for the C6 theorem at a concrete pool and unit reference. -/
theorem pool_enqueue_admission_witness :
    (ThreadPool.Enqueue (some 3) (⟨true, [1, 2]⟩ : PoolState Nat)).1 =
      Except.ok () ∧
    (ThreadPool.Enqueue (some 3) (⟨true, [1, 2]⟩ : PoolState Nat)).2.taskThreads =
      [1, 2] ++ [3] :=
  ⟨((pool_enqueue_admission Nat (some 3) ⟨true, [1, 2]⟩).2.2.1 3 rfl rfl).1,
   ((pool_enqueue_admission Nat (some 3) ⟨true, [1, 2]⟩).2.2.1 3 rfl rfl).2.1⟩

/-- Claim C7: with the valid arguments the Task handle always passes (a
non-null stack buffer of size sizeof(T) > 0), TaskThread::GetResult fails
with NoResult exactly when no result has been published; once a value is
stored it returns that value, mutates nothing, repeated calls return the
same value, and on a freshly constructed (WAITING) unit it fails with
NoResult. -/
theorem getResult_noResult_iff (β : Type) (u : TaskThreadState β)
    (sizeofT : Nat) (hsz : sizeofT ≠ 0) :
    ((TaskThread.GetResult false sizeofT u).1 =
        Except.error TaskError.NoResult ↔ u.result = none) ∧
    (∀ v, u.result = some v →
      (TaskThread.GetResult false sizeofT u).1 = Except.ok v) ∧
    (TaskThread.GetResult false sizeofT u).2 = u ∧
    (TaskThread.GetResult false sizeofT
        ((TaskThread.GetResult false sizeofT u).2)).1 =
      (TaskThread.GetResult false sizeofT u).1 ∧
    (TaskThread.GetResult false sizeofT (TaskThread.init β)).1 =
      Except.error TaskError.NoResult := by
  cases hres : u.result with
  | none =>
    simp [TaskThread.GetResult, TaskThread.init, hsz, hres]
  | some v =>
    simp [TaskThread.GetResult, TaskThread.init, hsz, hres]

/-- Witness for the C7 theorem at a concrete finished unit holding 5. -/
theorem getResult_noResult_iff_witness :
    ((TaskThread.GetResult false 8
        (⟨TaskState.FINISHED, some 5⟩ : TaskThreadState Nat)).1 =
        Except.error TaskError.NoResult ↔
      (⟨TaskState.FINISHED, some 5⟩ : TaskThreadState Nat).result = none) ∧
    (TaskThread.GetResult false 8
        (⟨TaskState.FINISHED, some 5⟩ : TaskThreadState Nat)).1 =
      Except.ok 5 :=
  ⟨(getResult_noResult_iff Nat ⟨TaskState.FINISHED, some 5⟩ 8 (by decide)).1,
   (getResult_noResult_iff Nat ⟨TaskState.FINISHED, some 5⟩ 8
     (by decide)).2.1 5 rfl⟩

/-- Claim C8: the CompletedTask factory yields a unit that reads FINISHED
immediately, whose GetResult returns the seeded value (for the non-void
specialization), and the pool state is untouched — the factory never
enqueues; the void factory likewise yields a FINISHED unit without
touching the pool. -/
theorem completedTask_finished_seeded (β τ : Type) (v : β) (sizeofT : Nat)
    (hsz : sizeofT ≠ 0) (ps : PoolState τ) :
    (∃ u, (Task.CompletedTask v sizeofT ps).1 = Except.ok u ∧
      TaskThread.GetState u = TaskState.FINISHED ∧
      Task.GetResult false sizeofT u = Except.ok (some v)) ∧
    (Task.CompletedTask v sizeofT ps).2 = ps ∧
    TaskThread.GetState (Task.CompletedTaskVoid β ps).1 =
      TaskState.FINISHED ∧
    (Task.CompletedTaskVoid β ps).2 = ps := by
  refine ⟨⟨⟨TaskState.FINISHED, some v⟩, ?_, rfl, ?_⟩, ?_, ?_, rfl⟩
  · simp [Task.CompletedTask, TaskThread.SetResult, TaskThread.SetFinished,
      TaskThread.init, hsz]
  · simp [Task.GetResult, TaskThread.GetResult, hsz]
  · simp [Task.CompletedTask, TaskThread.SetResult, TaskThread.init, hsz]
  · simp [Task.CompletedTaskVoid, TaskThread.SetFinished, TaskThread.init,
      TaskThread.GetState]

/-- Witness for the C8 theorem with seed 9 and sizeof(T) = 4. -/
theorem completedTask_finished_seeded_witness :
    (Task.CompletedTask 9 4 (⟨true, []⟩ : PoolState Nat)).2 =
      (⟨true, []⟩ : PoolState Nat) ∧
    TaskThread.GetState
        (Task.CompletedTaskVoid Nat (⟨true, []⟩ : PoolState Nat)).1 =
      TaskState.FINISHED :=
  ⟨(completedTask_finished_seeded Nat Nat 9 4 (by decide) ⟨true, []⟩).2.1,
   (completedTask_finished_seeded Nat Nat 9 4 (by decide) ⟨true, []⟩).2.2.1⟩

/-- Claim C9 counterexample: TaskThread::Enqueue holds the unit's mutex for
its whole body and calls ThreadPool::Enqueue inside that scope, so right
after the pool mutex is acquired the thread holds both locks at once —
refuting the claim that no thread ever holds a unit lock and the queue
lock simultaneously. -/
theorem enqueue_holds_both_locks :
    lockTrace_TaskThread_Enqueue ∈ codeLockTraces ∧
    anyBothHeld ⟨false, false⟩ lockTrace_TaskThread_Enqueue = true := by
  decide

/-- Claim C9 (amended): a thread can hold both locks at once (it does in
TaskThread::Enqueue), but every code path acquires them in one consistent
order: no path ever acquires the unit lock while already holding the queue
lock, so there is no lock-ordering cycle between the two mutexes. -/
theorem lock_order_consistent :
    (codeLockTraces.any (fun tr => anyBothHeld ⟨false, false⟩ tr)) = true ∧
    (codeLockTraces.all (fun tr =>
      !(anyUnitAcqWhileQueueHeld ⟨false, false⟩ tr))) = true := by
  decide

/-- Claim C10: in the void specialization of Task<T>::GetResult the whole
body is compiled out by `if constexpr`, so the call returns normally with
no effect in every unit state — including WAITING — and never raises
NoResult or any other error. -/
theorem getResult_void_total (β : Type) (sizeofT : Nat)
    (u : TaskThreadState β) :
    Task.GetResult true sizeofT u = Except.ok none := by
  rfl

end CppTask
